import Mathlib

/-!
Verification of the addy access-control tool (sudo_manager.py, user_manager.py,
git_ops.py) against its natural-language specification.

The sudoers drop-in directory is modelled as an association list from file
name (the path component under /etc/sudoers.d) to file content.  A user's
authorized_keys store is modelled as an optional string (none = file absent).
Machine-level concerns (permission bits, ownership) are not modelled; the
claims under study are about file existence, content, and call sequencing.
-/

namespace Addy

/-- A directory: file name to file content.  The name is the path component
under the fixed sudoers directory. -/
abbrev Fs := List (String × String)

/-- Reading a file: first binding wins. -/
def getF : Fs → String → Option String
  | [], _ => none
  | (n, c) :: t, m => if m = n then some c else getF t m

/-- Deleting a file (Path.unlink); removes every binding of the name. -/
def delF : Fs → String → Fs
  | [], _ => []
  | (n, c) :: t, m => if n = m then delF t m else (n, c) :: delF t m

/-- Writing a file (create or overwrite). -/
def setF (fs : Fs) (n c : String) : Fs := (n, c) :: delF fs n

/-- A well-formed directory binds each file name at most once. -/
def fsWf (fs : Fs) : Prop := (fs.map Prod.fst).Nodup

/-- The empty directory. -/
def emptyFs : Fs := []

/-- Index of the last '.' in a list of characters, if any. -/
def lastDotIdx (cs : List Char) : Option Nat :=
  ((cs.enum.filter (fun p => p.2 == '.')).map Prod.fst).getLast?

/-- Python pathlib: name.with_suffix(".tmp") on the final path component.
The suffix of a name is name[i:] where i is the index of the last '.',
provided 0 < i < len(name) - 1; with_suffix replaces it (or appends ".tmp"
when there is no suffix).  This is the temp-file name computed at
sudo_manager.py line 46: sudoers_file.with_suffix(".tmp"). -/
def withSuffixTmp (name : String) : String :=
  let cs := name.data
  match lastDotIdx cs with
  | some i =>
      if 0 < i && i + 1 < cs.length then String.mk (cs.take i) ++ ".tmp"
      else name ++ ".tmp"
  | none => name ++ ".tmp"

/-- The canonical grant line written by grant_sudo (sudo_manager.py line 43). -/
def sudoRule (username : String) : String := username ++ " ALL=(ALL) NOPASSWD:ALL\n"

/-- The canonical rule without trailing newline, as compared against trimmed
file content by _is_addy_sudoers_file (sudo_manager.py line 170). -/
def expectedRule (username : String) : String := username ++ " ALL=(ALL) NOPASSWD:ALL"

/-- Python str.strip() with no argument: drop leading and trailing
whitespace. -/
def pyStrip (s : String) : String :=
  String.mk (((s.data.dropWhile Char.isWhitespace).reverse.dropWhile
    Char.isWhitespace).reverse)

/-- _is_addy_sudoers_file: stripped content must equal the canonical rule for
the file's own name (sudo_manager.py lines 155-175). -/
def is_addy_sudoers_file (name content : String) : Bool :=
  pyStrip content == expectedRule name

/-- Outcome of grant_sudo. -/
inductive GrantOut
  | alreadyConfigured
  | granted
  | invalidSudoers
  | accountNotFound
  deriving DecidableEq

/-- The directory state after grant_sudo's temp-file write (sudo_manager.py
lines 46-48), before validation runs. -/
def grant_preValidateFs (fs : Fs) (u : String) : Fs :=
  setF fs (withSuffixTmp u) (sudoRule u)

/-- grant_sudo (sudo_manager.py lines 24-61), error-free execution.  The
sudoers syntax checker (visudo, wrapped by _validate_sudoers_file) is the
parameter check, applied to the candidate content; _validate_sudoers_file
already folds "checker binary missing" into a true result.  Rename moves the
temp file's content onto the final name, overwriting if present. -/
def grant_sudo (check : String → Bool) (fs : Fs) (u : String) : Fs × GrantOut :=
  if (getF fs u).isSome then (fs, .alreadyConfigured)
  else
    let temp := withSuffixTmp u
    let fs1 := grant_preValidateFs fs u
    if check (sudoRule u) then (setF (delF fs1 temp) u (sudoRule u), .granted)
    else (delF fs1 temp, .invalidSudoers)

/-- grant_sudo when an OS-level error is raised after the temp-file write
(at the chmod, validate, or rename step; none of these mutates file content
before failing, so the pre-handler state is the same for all three).  The
except handler (sudo_manager.py lines 63-71) unlinks SUDOERS_DIR /
(username + ".tmp") if it exists, then re-raises; the returned directory is
the state after that cleanup. -/
def grant_sudo_osError (fs : Fs) (u : String) : Fs :=
  if (getF fs u).isSome then fs
  else delF (grant_preValidateFs fs u) (u ++ ".tmp")

/-- Outcome of revoke_sudo. -/
inductive RevokeOut
  | notConfigured
  | removed
  deriving DecidableEq

/-- revoke_sudo (sudo_manager.py lines 73-92): unlink the drop-in file if it
exists, with no content inspection. -/
def revoke_sudo (fs : Fs) (u : String) : Fs × RevokeOut :=
  if (getF fs u).isSome then (delF fs u, .removed) else (fs, .notConfigured)

/-- The file name begins with '.' (a hidden file, skipped by the listing). -/
def startsWithDot (name : String) : Bool :=
  match name.data with
  | '.' :: _ => true
  | _ => false

/-- Insert a string into a sorted list of strings. -/
def insertSorted (x : String) : List String → List String
  | [] => [x]
  | y :: t => if x ≤ y then x :: y :: t else y :: insertSorted x t

/-- Python sorted() on a list of strings (insertion sort). -/
def sortStrings : List String → List String
  | [] => []
  | x :: t => insertSorted x (sortStrings t)

/-- list_sudo_users (sudo_manager.py lines 106-122): keep non-hidden files
whose content passes _is_addy_sudoers_file, return their names sorted. -/
def list_sudo_users (fs : Fs) : List String :=
  sortStrings ((fs.filter
    (fun p => !(startsWithDot p.1) && is_addy_sudoers_file p.1 p.2)).map Prod.fst)

/-- validate_username (user_manager.py lines 254-278): nonempty; alphanumeric
after removing '-', '_', '.'; first character alphanumeric; at most 32
characters.  Python's unicode-aware isalnum is modelled as ASCII
alphanumeric. -/
def validate_username (username : String) : Bool :=
  match username.data with
  | [] => false
  | c :: cs =>
      let stripped := (c :: cs).filter (fun x => !(x == '-' || x == '_' || x == '.'))
      if !(!stripped.isEmpty && stripped.all Char.isAlphanum) then false
      else if !c.isAlphanum then false
      else if 32 < (c :: cs).length then false
      else true

/-- A call on the injected user-management collaborator. -/
inductive MgrCall
  | removeSSHAccess (u : String)
  | deleteUserCall (u : String)
  deriving DecidableEq

/-- Modelled from the spec: revoke with flags (spec section 4.4, revoke steps
1-6).  The flagged signature revoke_sudo(username, remove_ssh=False,
delete_user=False) is called from cli.py lines 179-183 and exercised by the
test suite, but the flagged implementation is absent from src (src's
revoke_sudo takes only a username), so it is modelled from the spec's words:
delete the drop-in if present (steps 1-2), delete_user implies remove_ssh
regardless of the explicit flag (step 3), and the collaborator calls run
only when a user-management collaborator is bound (steps 4-6).  Returns the
directory and the collaborator calls in order. -/
def revoke_sudo_flags (managerBound : Bool) (fs : Fs) (u : String)
    (remove_ssh delete_user : Bool) : Fs × List MgrCall :=
  let fs1 := if (getF fs u).isSome then delF fs u else fs
  let effectiveRemoveSsh := remove_ssh || delete_user
  let calls :=
    (if effectiveRemoveSsh && managerBound then [MgrCall.removeSSHAccess u] else [])
      ++ (if delete_user && managerBound then [MgrCall.deleteUserCall u] else [])
  (fs1, calls)

/-- Modelled from the spec: the create_user gating of grant (spec section
4.4, grant steps 1-2).  The flagged signature grant_sudo(username,
create_user=False) is called from cli.py line 126 and exercised by the test
suite, but the flagged implementation is absent from src (src's grant_sudo
takes only a username), so steps 1-2 are modelled from the spec's words;
steps 3-5 are the src grant body (grant_sudo above).  Returns the directory,
the outcome, and whether account creation was delegated to the Account
Directory Adapter's create. -/
def grant_sudo_createUser (check : String → Bool) (userExists create_user : Bool)
    (fs : Fs) (u : String) : Fs × GrantOut × Bool :=
  if (getF fs u).isSome then (fs, .alreadyConfigured, false)
  else if userExists then
    ((grant_sudo check fs u).1, (grant_sudo check fs u).2, false)
  else if create_user then
    ((grant_sudo check fs u).1, (grant_sudo check fs u).2, true)
  else (fs, .accountNotFound, false)

/-- The OS account-removal command including home-directory removal
(userdel -r), per spec section 4.2 and the test suite's expectations. -/
def userdelCmd (u : String) : List String := ["userdel", "-r", u]

/-- Outcome of delete_user. -/
inductive DeleteOut
  | noop
  | deleted
  | deletionError
  deriving DecidableEq

/-- Modelled from the spec: UserManager.delete_user (spec section 4.2,
delete).  The method is called from cli.py line 177 and exercised by the
test suite, but its implementation is absent from src, so it is modelled
from the spec's words: no-op when the account does not exist, otherwise
invoke the OS account-removal facility including home-directory removal
(userdel -r); osDeleteOk is that facility's success, false yielding the
account-deletion error.  Returns the account list, the outcome, and the
command invoked, if any. -/
def delete_user (accounts : List String) (osDeleteOk : Bool) (u : String) :
    List String × DeleteOut × Option (List String) :=
  if accounts.contains u then
    if osDeleteOk then (accounts.erase u, .deleted, some (userdelCmd u))
    else (accounts, .deletionError, some (userdelCmd u))
  else (accounts, .noop, none)

/-- needle matches hay position-wise from the front (the position test of the
naive substring scan). -/
def eqAt : List Char → List Char → Bool
  | [], _ => true
  | _ :: _, [] => false
  | a :: as, b :: bs => a == b && eqAt as bs

/-- needle occurs as a contiguous substring of hay (Python's "needle in hay"). -/
def infixOf : List Char → List Char → Bool
  | k, [] => k.isEmpty
  | k, c :: t => eqAt k (c :: t) || infixOf k t

/-- Python substring containment on strings. -/
def strContains (hay needle : String) : Bool := infixOf needle.data hay.data

/-- install_ssh_key (user_manager.py lines 109-156), acting on the account's
authorized_keys store (none = file absent).  If the file exists and the
stripped key is a substring of its content, return with no write; otherwise
append the stripped key plus a newline (creating the file if absent).
Account-existence and directory/permission/ownership handling are outside
this model. -/
def install_ssh_key (existing : Option String) (public_key : String) : Option String :=
  match existing with
  | some content =>
      if strContains content (pyStrip public_key) then some content
      else some (content ++ (pyStrip public_key ++ "\n"))
  | none => some (pyStrip public_key ++ "\n")

/-- Splitting on newline characters, accumulator style. -/
def splitNlAux : List Char → List Char → List String
  | [], acc => [String.mk acc.reverse]
  | c :: t, acc =>
      if c == '\n' then String.mk acc.reverse :: splitNlAux t []
      else splitNlAux t (c :: acc)

/-- The lines of an authorized_keys content, split on newline. -/
def storedLines (content : String) : List String := splitNlAux content.data []

/-- Splitting on whitespace runs, accumulator style. -/
def splitWsAux : List Char → List Char → List String
  | [], acc => if acc.isEmpty then [] else [String.mk acc.reverse]
  | c :: t, acc =>
      if c.isWhitespace then
        if acc.isEmpty then splitWsAux t []
        else String.mk acc.reverse :: splitWsAux t []
      else splitWsAux t (c :: acc)

/-- Python str.split() with no separator: split on whitespace runs, dropping
empty tokens. -/
def splitWs (s : String) : List String := splitWsAux s.data []

/-- The supported key types (git_ops.py lines 158-165). -/
def valid_key_types : List String :=
  ["ssh-rsa", "ssh-ed25519", "ecdsa-sha2-nistp256", "ecdsa-sha2-nistp384",
    "ecdsa-sha2-nistp521", "ssh-dss"]

/-- Standard base64 alphabet character. -/
def isB64Char (c : Char) : Bool :=
  ('A' ≤ c && c ≤ 'Z') || ('a' ≤ c && c ≤ 'z') || ('0' ≤ c && c ≤ '9')
    || c == '+' || c == '/'

/-- CPython binascii.a2b_base64, non-strict mode, as a success predicate:
alphabet characters advance the quad position mod 4 and reset the pad count;
characters outside the alphabet are skipped; '=' at quad position >= 2
accumulates pads and completes the input once position + pads reaches 4
(success, remaining input ignored), while '=' at position < 2 is skipped; at
end of input, success iff the quad position is 0. -/
def b64Loop : List Char → Nat → Nat → Bool
  | [], q, _ => q == 0
  | c :: rest, q, pads =>
    if c == '=' then
      if 2 ≤ q then
        if 4 ≤ q + (pads + 1) then true else b64Loop rest q (pads + 1)
      else b64Loop rest q pads
    else if isB64Char c then b64Loop rest ((q + 1) % 4) 0
    else b64Loop rest q pads

/-- base64.b64decode(key_data) succeeds: the argument must be pure ASCII (a
non-ASCII str raises ValueError before decoding) and pass the non-strict
a2b_base64 scan. -/
def b64decodable (s : String) : Bool :=
  s.data.all (fun c => c.toNat < 128) && b64Loop s.data 0 0

/-- _validate_ssh_public_key (git_ops.py lines 139-183): strip and split on
whitespace; require at least two tokens; the first must be a supported key
type; the second must decode as base64.  All failures, including exceptions
raised by the decoder, yield false. -/
def validate_ssh_public_key (key_content : String) : Bool :=
  match splitWs (pyStrip key_content) with
  | key_type :: key_data :: _ =>
      if !(valid_key_types.contains key_type) then false
      else b64decodable key_data
  | _ => false

end Addy

namespace Addy

theorem getF_delF (fs : Fs) (n m : String) :
    getF (delF fs n) m = if m = n then none else getF fs m := by
  induction fs with
  | nil => simp [delF, getF]
  | cons p t ih =>
    obtain ⟨a, c⟩ := p
    simp only [delF]
    by_cases h1 : a = n
    · subst h1
      rw [if_pos rfl, ih]
      by_cases h2 : m = a
      · simp [h2]
      · simp [getF, h2]
    · rw [if_neg h1]
      by_cases h2 : m = a
      · subst h2
        simp [getF, h1]
      · simp [getF, h2, ih]

theorem getF_setF (fs : Fs) (n c m : String) :
    getF (setF fs n c) m = if m = n then some c else getF fs m := by
  by_cases h : m = n <;> simp [setF, getF, h, getF_delF]

theorem grant_sudo_invalid (check : String → Bool) (fs : Fs) (u : String)
    (habs : getF fs u = none) (hcheck : check (sudoRule u) = false) :
    grant_sudo check fs u
      = (delF (grant_preValidateFs fs u) (withSuffixTmp u), GrantOut.invalidSudoers) := by
  unfold grant_sudo
  rw [habs]
  simp only [Option.isSome_none, Bool.false_eq_true, if_false, hcheck]

/-- Claim C1: if the sudoers syntax checker rejects the candidate during
grant, then grant deletes the temp file, fails with the invalid-sudoers
outcome, and afterwards no file exists at the final drop-in path. -/
theorem grant_validation_failure_clean (check : String → Bool) (fs : Fs) (u : String)
    (habs : getF fs u = none) (hcheck : check (sudoRule u) = false) :
    (grant_sudo check fs u).2 = GrantOut.invalidSudoers
      ∧ getF (grant_sudo check fs u).1 (withSuffixTmp u) = none
      ∧ getF (grant_sudo check fs u).1 u = none := by
  rw [grant_sudo_invalid check fs u habs hcheck]
  refine ⟨rfl, ?_, ?_⟩
  · rw [getF_delF, if_pos rfl]
  · rw [getF_delF]
    by_cases h : u = withSuffixTmp u
    · rw [if_pos h]
    · rw [if_neg h, grant_preValidateFs, getF_setF, if_neg h, habs]

/-- Witness for C1: a stub checker that always fails, an empty directory. -/
theorem grant_validation_failure_clean_witness :
    (grant_sudo (fun _ => false) emptyFs "alice").2 = GrantOut.invalidSudoers
      ∧ getF (grant_sudo (fun _ => false) emptyFs "alice").1 (withSuffixTmp "alice") = none
      ∧ getF (grant_sudo (fun _ => false) emptyFs "alice").1 "alice" = none :=
  grant_validation_failure_clean (fun _ => false) emptyFs "alice" rfl rfl

/-- Claim C2 (refuted, code bug): "x.tmp" is a valid username, yet the temp
path grant computes for it (with_suffix of the final path) equals the final
drop-in path itself, so grant's pre-validation write places the unvalidated
candidate line directly at the final drop-in path. -/
theorem grant_tmp_username_hits_final_path :
    validate_username "x.tmp" = true
      ∧ withSuffixTmp "x.tmp" = "x.tmp"
      ∧ getF (grant_preValidateFs emptyFs "x.tmp") "x.tmp" = some (sudoRule "x.tmp") :=
  ⟨rfl, rfl, rfl⟩

/-- Claim C10 (refuted, code bug): for username "a.b" the grant writes its
temp file at "a.tmp", but the except handler cleans up "a.b.tmp", so after
an OS-level error the temp file the grant actually created survives. -/
theorem grant_osError_orphans_temp :
    withSuffixTmp "a.b" = "a.tmp"
      ∧ "a.b" ++ ".tmp" ≠ withSuffixTmp "a.b"
      ∧ getF (grant_sudo_osError emptyFs "a.b") (withSuffixTmp "a.b")
          = some (sudoRule "a.b") :=
  ⟨rfl, by decide, rfl⟩

/-- Claim C3 counterexample: a drop-in file whose stripped content is not
the canonical line is not left untouched by revoke; it is deleted. -/
theorem revoke_deletes_unmanaged_file :
    pyStrip "alice ALL=(ALL) ALL\n" ≠ expectedRule "alice"
      ∧ getF [("alice", "alice ALL=(ALL) ALL\n")] "alice" = some "alice ALL=(ALL) ALL\n"
      ∧ getF (revoke_sudo [("alice", "alice ALL=(ALL) ALL\n")] "alice").1 "alice" = none :=
  ⟨by decide, rfl, rfl⟩

theorem getF_of_mem (fs : Fs) (u c : String) (hwf : fsWf fs) (hmem : (u, c) ∈ fs) :
    getF fs u = some c := by
  induction fs with
  | nil => cases hmem
  | cons p t ih =>
    obtain ⟨a, b⟩ := p
    rw [fsWf, List.map_cons, List.nodup_cons] at hwf
    cases hmem with
    | head => simp [getF]
    | tail _ h =>
      have ha : ¬(u = a) := by
        intro hEq
        subst hEq
        exact hwf.1 (List.mem_map.mpr ⟨(u, c), h, rfl⟩)
      rw [getF, if_neg ha]
      exact ih hwf.2 h

theorem mem_insertSorted (a x : String) (l : List String) :
    a ∈ insertSorted x l ↔ a = x ∨ a ∈ l := by
  induction l with
  | nil => simp [insertSorted]
  | cons y t ih =>
    rw [insertSorted]
    by_cases h : x ≤ y
    · simp [h]
    · rw [if_neg h]
      simp only [List.mem_cons, ih]
      tauto

theorem mem_sortStrings (a : String) (l : List String) :
    a ∈ sortStrings l ↔ a ∈ l := by
  induction l with
  | nil => simp [sortStrings]
  | cons x t ih =>
    rw [sortStrings, mem_insertSorted, ih]
    simp

/-- Claim C3 (amended): for a file at the username's drop-in path whose
stripped content is not the canonical line, revoke nevertheless deletes the
file, while the list operation omits the username. -/
theorem revoke_deletes_and_list_omits (fs : Fs) (u c : String)
    (hwf : fsWf fs) (hget : getF fs u = some c) (hc : pyStrip c ≠ expectedRule u) :
    getF (revoke_sudo fs u).1 u = none ∧ u ∉ list_sudo_users fs := by
  constructor
  · have h : (getF fs u).isSome = true := by rw [hget]; rfl
    unfold revoke_sudo
    rw [if_pos h]
    rw [getF_delF, if_pos rfl]
  · intro hmem
    rw [list_sudo_users, mem_sortStrings] at hmem
    obtain ⟨p, hp, hpu⟩ := List.mem_map.mp hmem
    obtain ⟨a, b⟩ := p
    simp only at hpu
    subst hpu
    have hpf := List.mem_filter.mp hp
    have hb : is_addy_sudoers_file a b = true := by
      have h2 := hpf.2
      rw [Bool.and_eq_true] at h2
      exact h2.2
    rw [is_addy_sudoers_file] at hb
    have hbc : b = c := by
      have := getF_of_mem fs a b hwf hpf.1
      rw [hget] at this
      exact Option.some_injective _ this.symm
    subst hbc
    exact hc (by simpa using hb)

/-- Witness for the amended C3. -/
theorem revoke_deletes_and_list_omits_witness :
    getF (revoke_sudo [("bob", "hand edited\n")] "bob").1 "bob" = none
      ∧ "bob" ∉ list_sudo_users [("bob", "hand edited\n")] :=
  revoke_deletes_and_list_omits [("bob", "hand edited\n")] "bob" "hand edited\n"
    (by unfold fsWf; decide) rfl (by decide)

/-- Claim C4: with a user-management collaborator bound, revoke with
delete_user=true performs SSH de-provisioning even though remove_ssh was
passed false, and then deletes the account. -/
theorem revoke_delete_user_implies_remove_ssh (fs : Fs) (u : String) :
    (revoke_sudo_flags true fs u false true).2
      = [MgrCall.removeSSHAccess u, MgrCall.deleteUserCall u] := rfl

/-- Claim C5: when the drop-in is absent and the account does not exist,
grant with create_user=true delegates account creation and then proceeds
exactly as the grant for an existing account would, while grant with
create_user=false fails with the account-not-found outcome, delegating
nothing and leaving the directory unchanged. -/
theorem grant_create_user_gating (check : String → Bool) (fs : Fs) (u : String)
    (habs : getF fs u = none) :
    grant_sudo_createUser check false true fs u
        = ((grant_sudo check fs u).1, (grant_sudo check fs u).2, true)
      ∧ grant_sudo_createUser check false false fs u
          = (fs, GrantOut.accountNotFound, false) := by
  have hneg : ¬((getF fs u).isSome = true) := by rw [habs]; simp
  constructor <;> (unfold grant_sudo_createUser; rw [if_neg hneg]; rfl)

/-- Witness for C5. -/
theorem grant_create_user_gating_witness :
    grant_sudo_createUser (fun _ => true) false true emptyFs "bob"
        = ((grant_sudo (fun _ => true) emptyFs "bob").1,
            (grant_sudo (fun _ => true) emptyFs "bob").2, true)
      ∧ grant_sudo_createUser (fun _ => true) false false emptyFs "bob"
          = (emptyFs, GrantOut.accountNotFound, false) :=
  grant_create_user_gating (fun _ => true) emptyFs "bob" rfl

/-- Claim C6: delete_user is a no-op when the account does not exist;
otherwise it invokes the OS account-removal facility including
home-directory removal (userdel -r), removing the account on success and
reporting the account-deletion error, with the account kept, on failure. -/
theorem delete_user_spec (accounts : List String) (ok : Bool) (u : String) :
    (accounts.contains u = false →
        delete_user accounts ok u = (accounts, DeleteOut.noop, none))
      ∧ (accounts.contains u = true →
          (delete_user accounts ok u).2.2 = some (userdelCmd u)
            ∧ (ok = true → delete_user accounts ok u
                = (accounts.erase u, DeleteOut.deleted, some (userdelCmd u)))
            ∧ (ok = false → (delete_user accounts ok u).2.1 = DeleteOut.deletionError
                ∧ (delete_user accounts ok u).1 = accounts)) := by
  constructor
  · intro h
    unfold delete_user
    rw [h]
    rfl
  · intro h
    unfold delete_user
    rw [h]
    cases ok
    · exact ⟨rfl, fun hk => Bool.noConfusion hk, fun _ => ⟨rfl, rfl⟩⟩
    · exact ⟨rfl, fun _ => rfl, fun hk => Bool.noConfusion hk⟩

/-- Witness for C6. -/
theorem delete_user_spec_witness :
    delete_user ["alice"] true "alice"
        = (List.erase ["alice"] "alice", DeleteOut.deleted, some (userdelCmd "alice"))
      ∧ delete_user [] true "carol" = ([], DeleteOut.noop, none) :=
  ⟨((delete_user_spec ["alice"] true "alice").2 (by decide)).2.1 rfl,
    (delete_user_spec [] true "carol").1 rfl⟩

theorem data_append (s t : String) : (s ++ t).data = s.data ++ t.data := by
  cases s
  cases t
  rfl

theorem eqAt_self_append (k t : List Char) : eqAt k (k ++ t) = true := by
  induction k with
  | nil => rfl
  | cons a as ih => simp [eqAt, ih]

theorem infixOf_of_eqAt (k h : List Char) (he : eqAt k h = true) :
    infixOf k h = true := by
  cases h with
  | nil =>
    cases k with
    | nil => rfl
    | cons a as => exact Bool.noConfusion he
  | cons c t => simp [infixOf, he]

theorem infixOf_cons (k : List Char) (c : Char) (t : List Char)
    (hi : infixOf k t = true) : infixOf k (c :: t) = true := by
  simp [infixOf, hi]

theorem infixOf_sandwich (a k t : List Char) : infixOf k (a ++ (k ++ t)) = true := by
  induction a with
  | nil => exact infixOf_of_eqAt k (k ++ t) (eqAt_self_append k t)
  | cons c cs ih => exact infixOf_cons _ c _ ih

theorem strContains_self_append (k t : String) : strContains (k ++ t) k = true := by
  unfold strContains
  rw [data_append]
  exact infixOf_of_eqAt _ _ (eqAt_self_append _ _)

theorem strContains_sandwich (a k t : String) :
    strContains (a ++ (k ++ t)) k = true := by
  unfold strContains
  rw [data_append, data_append]
  exact infixOf_sandwich _ _ _

/-- Claim C8 counterexample: the store is not keyed by exact line content; a
stripped blob that is a proper substring of a different stored line is
treated as already installed, and no write happens. -/
theorem install_substring_not_line_no_write :
    install_ssh_key (some "ssh-ed25519 AAAA alice\n") "AAAA"
        = some "ssh-ed25519 AAAA alice\n"
      ∧ pyStrip "AAAA" ∉ storedLines "ssh-ed25519 AAAA alice\n" :=
  ⟨rfl, by decide⟩

/-- Claim C8 (amended): for an existing authorized-keys store, install
performs no write if and only if the stripped key blob is a substring of the
stored content. -/
theorem install_no_write_iff_substring (content k : String) :
    install_ssh_key (some content) k = some content
      ↔ strContains content (pyStrip k) = true := by
  constructor
  · intro h
    cases hs : strContains content (pyStrip k) with
    | true => rfl
    | false =>
      exfalso
      rw [install_ssh_key, hs] at h
      simp only [Bool.false_eq_true, if_false, Option.some.injEq] at h
      have hl := congrArg String.length h
      rw [String.length_append, String.length_append] at hl
      have hnl : ("\n" : String).length = 1 := rfl
      rw [hnl] at hl
      omega
  · intro h
    rw [install_ssh_key, h, if_pos rfl]

/-- Witness for the amended C8. -/
theorem install_no_write_iff_substring_witness :
    install_ssh_key (some "ssh-rsa KEYDATA dan\n") "KEYDATA"
        = some "ssh-rsa KEYDATA dan\n" :=
  (install_no_write_iff_substring "ssh-rsa KEYDATA dan\n" "KEYDATA").mpr (by decide)

/-- Claim C9: installing the same key twice is idempotent; the second call
performs no write and the store is byte-identical to its state after the
first call. -/
theorem install_ssh_key_idempotent (existing : Option String) (k : String) :
    install_ssh_key (install_ssh_key existing k) k = install_ssh_key existing k := by
  cases existing with
  | none =>
    show install_ssh_key (some (pyStrip k ++ "\n")) k = some (pyStrip k ++ "\n")
    rw [install_ssh_key, strContains_self_append, if_pos rfl]
  | some content =>
    cases hs : strContains content (pyStrip k) with
    | true =>
      rw [install_ssh_key, hs, if_pos rfl]
      show install_ssh_key (some content) k = some content
      rw [install_ssh_key, hs, if_pos rfl]
    | false =>
      rw [install_ssh_key, hs]
      show install_ssh_key (some (content ++ (pyStrip k ++ "\n"))) k
          = some (content ++ (pyStrip k ++ "\n"))
      rw [install_ssh_key, strContains_sandwich, if_pos rfl]

/-- Claim C7: the key validator rejects every input whose stripped content
splits into fewer than two whitespace tokens (the empty string included),
every input whose first token is not a supported key type, and every input
whose second token does not decode as standard base64; and it accepts a
well-formed blob of each of the six supported types.  The validator is a
total boolean function, so no input raises. -/
theorem validate_ssh_public_key_spec :
    (∀ s : String, (splitWs (pyStrip s)).length < 2 → validate_ssh_public_key s = false)
      ∧ (∀ (s t d : String) (r : List String), splitWs (pyStrip s) = t :: d :: r →
          valid_key_types.contains t = false → validate_ssh_public_key s = false)
      ∧ (∀ (s t d : String) (r : List String), splitWs (pyStrip s) = t :: d :: r →
          b64decodable d = false → validate_ssh_public_key s = false)
      ∧ validate_ssh_public_key "" = false
      ∧ validate_ssh_public_key "ssh-rsa AAAAB3NzaC1yc2E= user@host" = true
      ∧ validate_ssh_public_key "ssh-ed25519 AAAA user@host" = true
      ∧ validate_ssh_public_key "ecdsa-sha2-nistp256 AAAA user@host" = true
      ∧ validate_ssh_public_key "ecdsa-sha2-nistp384 AAAA user@host" = true
      ∧ validate_ssh_public_key "ecdsa-sha2-nistp521 AAAA user@host" = true
      ∧ validate_ssh_public_key "ssh-dss AAAA user@host" = true := by
  refine ⟨?_, ?_, ?_, rfl, rfl, rfl, rfl, rfl, rfl, rfl⟩
  · intro s h
    unfold validate_ssh_public_key
    cases hsp : splitWs (pyStrip s) with
    | nil => rfl
    | cons a l =>
      cases l with
      | nil => rfl
      | cons b r =>
        rw [hsp] at h
        simp at h
        omega
  · intro s t d r hsp hty
    unfold validate_ssh_public_key
    rw [hsp]
    show (if (!valid_key_types.contains t) = true then false else b64decodable d) = false
    rw [hty]
    rfl
  · intro s t d r hsp hd
    unfold validate_ssh_public_key
    rw [hsp]
    show (if (!valid_key_types.contains t) = true then false else b64decodable d) = false
    cases hty : valid_key_types.contains t
    · rfl
    · rw [hd]
      rfl

/-- Witness for C7: one rejected input per failure clause. -/
theorem validate_ssh_public_key_spec_witness :
    validate_ssh_public_key "single-token" = false
      ∧ validate_ssh_public_key "foo-type AAAA" = false
      ∧ validate_ssh_public_key "ssh-rsa A" = false :=
  ⟨validate_ssh_public_key_spec.1 "single-token" (by decide),
    validate_ssh_public_key_spec.2.1 "foo-type AAAA" "foo-type" "AAAA" []
      (by decide) (by decide),
    validate_ssh_public_key_spec.2.2.1 "ssh-rsa A" "ssh-rsa" "A" []
      (by decide) (by decide)⟩

end Addy
